import Mathlib

/-!
Verification of the `RalphLoopRunner` supervision loop (ralph_gui.py).

The embedding models the sentinel-file protocol, the per-attempt loop body
of `RalphLoopRunner._run_loop`, the interruptible wait of
`_wait_with_state`, and the control API (`start`, `stop`, `pause`,
`resume`, `force_kill`, the missing-checkpoint decisions).

External interactions (file creations by the agent, flag sets by the
operator thread) are supplied by an environment record per attempt; the
runner's own deletions are threaded through explicitly.  Statuses are the
exact status strings of the source, as an inductive type.
-/

/-- Status strings of `RalphLoopRunner._status`. -/
inductive Status where
  | pending
  | running
  | paused
  | missing_checkpoint
  | completed
  | blocked
  | stopped
  | failed
deriving DecidableEq, Repr

/-- Existence of each sentinel file in the supervised folder
(`PIN_SPEC`, `PLAN_FILE`, `PROGRESS_FILE`, `DONE_FILE`, `BLOCKED_FILE`,
`STOP_FILE`, `CHECKPOINT_FILE`). -/
structure FS where
  done : Bool
  blocked : Bool
  stopFile : Bool
  checkpoint : Bool
  designSpec : Bool
  plan : Bool
  progress : Bool
deriving DecidableEq, Repr

/-- The empty folder: no sentinel files present. -/
def FS.empty : FS := ⟨false, false, false, false, false, false, false⟩

/-- Files created externally are merged into the runner's view of the
folder: a file exists if it already existed or was just created. -/
def FS.union (a b : FS) : FS :=
  ⟨a.done || b.done, a.blocked || b.blocked, a.stopFile || b.stopFile,
   a.checkpoint || b.checkpoint, a.designSpec || b.designSpec,
   a.plan || b.plan, a.progress || b.progress⟩

/-- Reasons recorded by `_wait_with_state`. -/
inductive WReason where
  | checkpoint
  | backoff
  | cooldown
deriving DecidableEq, Repr

/-- Observable events of one pass through the loop body: status writes,
checkpoint-file deletions, waits entered, and agent invocations. -/
inductive Ev where
  | setStatus (st : Status)
  | removeCheckpoint
  | waitState (r : WReason) (dur : Nat)
  | invoke (ok : Bool)
deriving DecidableEq, Repr

/-- Constructor parameters of `RalphLoopRunner` relevant to the loop. -/
structure Config where
  maxAttempts : Nat
  sleepSeconds : Nat
deriving DecidableEq, Repr

/-- External inputs consumed during one attempt, in program order:
the pause flag at the loop boundary, how a pause block resolves, the stop
flag at the stop check, files created before the pre-invocation checks,
the invocation result, a stop arriving mid-invocation, files created by
the invocation, the missing-checkpoint gate resolution, and a stop
arriving during whichever wait the attempt performs. -/
structure AttemptEnv where
  pauseRequested : Bool
  stopWhilePaused : Bool
  stopAtCheck : Bool
  preAdd : FS
  invokeOk : Bool
  stopDuringInvoke : Bool
  postAdd : FS
  gateStop : Bool
  gateDecision : Bool
  stopDuringWait : Bool
deriving DecidableEq, Repr

/-- State carried from one attempt to the next: the folder contents and
the sticky `_stop_requested` flag. -/
structure LoopState where
  fs : FS
  stopRequested : Bool
deriving DecidableEq, Repr

/-- Result of one attempt: either the loop returns with a terminal status
(and possibly an error message), or it continues to the next attempt. -/
inductive StepRes where
  | term (st : Status) (err : Option String) (fs : FS)
  | cont (s : LoopState)
deriving DecidableEq, Repr

/-- Missing-checkpoint gate (`_run_loop` lines 1121-1145): set status
`missing_checkpoint`, block until a stop request or an operator decision;
stop or a "stop" decision ends the run `stopped`; a "continue" decision
restores `running` and performs a `cooldown` wait. -/
def gatePhase (cfg : Config) (e : AttemptEnv) (fsP : FS) (evs : List Ev) :
    StepRes × List Ev :=
  let evs := evs ++ [Ev.setStatus .missing_checkpoint]
  if e.gateStop then
    (.term .stopped none fsP, evs ++ [Ev.setStatus .stopped])
  else if e.gateDecision = false then
    (.term .stopped none fsP, evs ++ [Ev.setStatus .stopped])
  else
    (.cont ⟨fsP, e.stopDuringWait⟩,
      evs ++ [Ev.setStatus .running, Ev.waitState .cooldown cfg.sleepSeconds])

/-- Post-invocation checks (`_run_loop` lines 1096-1145): done, then
blocked (each deleting a simultaneous checkpoint file), then checkpoint
consumption with a `checkpoint` wait, else the missing-checkpoint gate. -/
def postChecks (cfg : Config) (e : AttemptEnv) (fs1 : FS) (evs : List Ev) :
    StepRes × List Ev :=
  let fsP := FS.union fs1 e.postAdd
  if fsP.done then
    (.term .completed none { fsP with checkpoint := false },
      evs ++ (if fsP.checkpoint then [Ev.removeCheckpoint] else []) ++
        [Ev.setStatus .completed])
  else if fsP.blocked then
    (.term .blocked none { fsP with checkpoint := false },
      evs ++ (if fsP.checkpoint then [Ev.removeCheckpoint] else []) ++
        [Ev.setStatus .blocked])
  else if fsP.checkpoint then
    (.cont ⟨{ fsP with checkpoint := false }, e.stopDuringWait⟩,
      evs ++ [Ev.removeCheckpoint, Ev.waitState .checkpoint cfg.sleepSeconds])
  else
    gatePhase cfg e fsP evs

/-- Invocation (`_invoke_opencode` plus `_run_loop` lines 1090-1094):
the call fails when the process exits non-zero, fails to launch, or a stop
request terminates it; failure triggers a `backoff` wait and the next
attempt; success proceeds to the post-invocation checks. -/
def invokePhase (cfg : Config) (e : AttemptEnv) (fs1 : FS) (evs : List Ev) :
    StepRes × List Ev :=
  let ok := e.invokeOk && !e.stopDuringInvoke
  let evs := evs ++ [Ev.invoke ok]
  if ok then
    postChecks cfg e fs1 evs
  else
    (.cont ⟨fs1, e.stopDuringInvoke || e.stopDuringWait⟩,
      evs ++ [Ev.waitState .backoff cfg.sleepSeconds])

/-- Pre-invocation checks (`_run_loop` lines 1059-1094): the stop check
(flag or stop file), then done, then blocked (each deleting a simultaneous
checkpoint file), then checkpoint consumption with a `checkpoint` wait and
no invocation, else the invocation. -/
def preChecks (cfg : Config) (e : AttemptEnv) (s : LoopState) (evs : List Ev) :
    StepRes × List Ev :=
  if s.stopRequested || e.stopAtCheck || s.fs.stopFile then
    (.term .stopped none s.fs, evs ++ [Ev.setStatus .stopped])
  else if s.fs.done then
    (.term .completed none { s.fs with checkpoint := false },
      evs ++ (if s.fs.checkpoint then [Ev.removeCheckpoint] else []) ++
        [Ev.setStatus .completed])
  else if s.fs.blocked then
    (.term .blocked none { s.fs with checkpoint := false },
      evs ++ (if s.fs.checkpoint then [Ev.removeCheckpoint] else []) ++
        [Ev.setStatus .blocked])
  else if s.fs.checkpoint then
    (.cont ⟨{ s.fs with checkpoint := false }, e.stopDuringWait⟩,
      evs ++ [Ev.removeCheckpoint, Ev.waitState .checkpoint cfg.sleepSeconds])
  else
    invokePhase cfg e s.fs evs

/-- One pass through the body of the `for attempt in range(...)` loop of
`_run_loop`: the pause boundary (lines 1044-1057) — a stop while paused
ends the run `stopped`, otherwise status returns to `running` — followed
by the pre-invocation checks. -/
def attemptStep (cfg : Config) (e : AttemptEnv) (s : LoopState) :
    StepRes × List Ev :=
  let fs1 := FS.union s.fs e.preAdd
  if e.pauseRequested then
    if s.stopRequested || e.stopWhilePaused then
      (.term .stopped none fs1, [Ev.setStatus .paused, Ev.setStatus .stopped])
    else
      preChecks cfg e ⟨fs1, s.stopRequested⟩
        [Ev.setStatus .paused, Ev.setStatus .running]
  else
    preChecks cfg e ⟨fs1, s.stopRequested⟩ []

/-- The whole-run environment: the folder contents when `start` is called
and the external inputs of each attempt (1-based). -/
structure RunEnv where
  initFS : FS
  att : Nat → AttemptEnv

/-- Final observable state of a run: status, `_error_message`, folder
contents, `_current_attempt`, and the per-attempt event trace. -/
structure RunResult where
  status : Status
  errorMessage : Option String
  fs : FS
  attempt : Nat
  trace : List (Nat × List Ev)
deriving DecidableEq, Repr

/-- The attempt loop of `_run_loop` (lines 1040-1150): run attempts while
any remain; exhausting them without a terminal step sets `failed` with
message "Max attempts reached". -/
def loopAux (cfg : Config) (env : RunEnv) : Nat → Nat → LoopState → RunResult
  | 0, i, s => ⟨.failed, some "Max attempts reached", s.fs, i - 1, []⟩
  | rem + 1, i, s =>
    match attemptStep cfg (env.att i) s with
    | (.term st err fs, evs) => ⟨st, err, fs, i, [(i, evs)]⟩
    | (.cont s', evs) =>
      let r := loopAux cfg env rem (i + 1) s'
      ⟨r.status, r.errorMessage, r.fs, r.attempt, (i, evs) :: r.trace⟩

/-- The `PIN_SPEC` design-spec sentinel filename. -/
def PIN_SPEC : String := "RALPH-DESIGN.md"

/-- Error message recorded when the design spec is missing at start
(`_run_loop` line 1026). -/
def MISSING_SPEC_MSG : String := "Missing " ++ PIN_SPEC

/-- Folder state after loop initialization (`_run_loop` lines 1030-1036):
plan and progress files are scaffolded if absent, and any pre-existing
done and blocked sentinel files are removed. -/
def initialFS (fs : FS) : FS :=
  { fs with plan := true, progress := true, done := false, blocked := false }

/-- `_run_loop` (lines 1020-1150): fail immediately if the design spec is
absent, otherwise scaffold, clear stale terminal sentinels, and run the
attempt loop starting from attempt 1 with the stop flag cleared (as
`start` resets it). -/
def runLoop (cfg : Config) (env : RunEnv) : RunResult :=
  if env.initFS.designSpec = false then
    ⟨.failed, some MISSING_SPEC_MSG, env.initFS, 0, []⟩
  else
    loopAux cfg env cfg.maxAttempts 1 ⟨initialFS env.initFS, false⟩

/-- Recognizer for invocation events. -/
def isInvokeEv : Ev → Bool
  | .invoke _ => true
  | _ => false

/-- Number of agent invocations recorded in a run trace. -/
def countInvokes (tr : List (Nat × List Ev)) : Nat :=
  (tr.map (fun p => (p.2.filter isInvokeEv).length)).sum

/-- The interruptible sleep loop of `_wait_with_state` (lines 865-875),
counted in half-second ticks: `r` ticks remain until the duration elapses,
`stop t` is the `_stop_requested` flag read before the sleep at tick `t`;
the value is the number of sleeps actually performed. -/
def waitTicks (stop : Nat → Bool) : Nat → Nat → Nat
  | 0, _ => 0
  | r + 1, t => if stop t then 0 else waitTicks stop r (t + 1) + 1

/-- Handle to the child process: its pid and the pids of the descendant
processes it has spawned. -/
structure ProcHandle where
  pid : Nat
  descendants : List Nat
deriving DecidableEq, Repr

/-- Host platform, distinguished by `platform.system() == "Windows"`. -/
inductive OSKind where
  | windows
  | posix
deriving DecidableEq, Repr

/-- Cross-thread mutable attributes of a `RalphLoopRunner` instance, as
read and written by the control API. -/
structure RunnerState where
  status : Status
  errorMessage : Option String
  stopRequested : Bool
  pauseRequested : Bool
  isPaused : Bool
  isWaiting : Bool
  missingCheckpointPause : Bool
  userContinueDecision : Option Bool
  currentProcess : Option ProcHandle
  threadAlive : Bool
deriving DecidableEq, Repr

namespace RalphLoopRunner

/-- `pause` (lines 816-819): queue a pause unless already paused. -/
def pause (s : RunnerState) : RunnerState :=
  if s.isPaused = false then { s with pauseRequested := true } else s

/-- `resume` (lines 821-824): clear both pause flags. -/
def resume (s : RunnerState) : RunnerState :=
  { s with isPaused := false, pauseRequested := false }

/-- `stop` (lines 887-889): request a graceful stop. -/
def stop (s : RunnerState) : RunnerState :=
  { s with stopRequested := true }

/-- `continue_after_missing_checkpoint` (lines 806-809). -/
def continue_after_missing_checkpoint (s : RunnerState) : RunnerState :=
  { s with userContinueDecision := some true, missingCheckpointPause := false }

/-- `stop_after_missing_checkpoint` (lines 811-814). -/
def stop_after_missing_checkpoint (s : RunnerState) : RunnerState :=
  { s with userContinueDecision := some false, missingCheckpointPause := false }

/-- Pids terminated by `force_kill` when a child process is live: on
Windows, `taskkill /T /F` kills the whole process tree; elsewhere
`Popen.terminate` (escalating to `Popen.kill`) signals only the direct
child process. -/
def killedPids (os : OSKind) (p : ProcHandle) : List Nat :=
  match os with
  | .windows => p.pid :: p.descendants
  | .posix => [p.pid]

/-- `force_kill` (lines 826-849): set the stop flag, kill the child (tree
on Windows, direct child elsewhere), drop the process handle, clear the
wait and pause flags, and set status `stopped`.  Returns the new state and
the list of pids terminated. -/
def force_kill (os : OSKind) (s : RunnerState) : RunnerState × List Nat :=
  let killed :=
    match s.currentProcess with
    | some p => killedPids os p
    | none => []
  ({ s with stopRequested := true, currentProcess := none,
            isWaiting := false, isPaused := false, status := .stopped },
   killed)

/-- `start` (lines 877-885): raise if the background thread is still
alive, otherwise clear the stop flag, set status `running`, and launch the
thread. -/
def start (s : RunnerState) : Except String RunnerState :=
  if s.threadAlive then
    .error "Runner is already running"
  else
    .ok { s with stopRequested := false, status := .running,
                 threadAlive := true }

end RalphLoopRunner

/-- Whether the run continues through all remaining attempts without any
attempt returning a terminal status (the loop gets exhausted). -/
def runsAllAttempts (cfg : Config) (env : RunEnv) : Nat → Nat → LoopState → Bool
  | 0, _, _ => true
  | rem + 1, i, s =>
    match (attemptStep cfg (env.att i) s).1 with
    | .term _ _ _ => false
    | .cont s' => runsAllAttempts cfg env rem (i + 1) s'

/-- An attempt with no external activity: no pause, no stop, no files
created, and a failing invocation. -/
def quietAttempt : AttemptEnv :=
  ⟨false, false, false, FS.empty, false, false, FS.empty, false, false, false⟩

/-- A folder holding only the design spec. -/
def specOnlyFS : FS := { FS.empty with designSpec := true }

/-- An attempt in which a checkpoint file appears before invocation and
the operator requests a stop during the resulting wait. -/
def ckStopAttempt : AttemptEnv :=
  ⟨false, false, false, { FS.empty with checkpoint := true }, false, false,
   FS.empty, false, false, true⟩

/-- A folder holding the design spec plus done and checkpoint files. -/
def doneCkFS : FS :=
  { FS.empty with done := true, checkpoint := true, designSpec := true }

/-- A folder holding the design spec plus a checkpoint file. -/
def ckOnlyFS : FS :=
  { FS.empty with checkpoint := true, designSpec := true }

/-- An attempt with a successful invocation that creates no files, whose
missing-checkpoint gate resolves to the "continue" decision. -/
def gateContAttempt : AttemptEnv :=
  ⟨false, false, false, FS.empty, true, false, FS.empty, false, true, false⟩

/-- A folder holding the design spec plus stale done and blocked files
left over from a previous run. -/
def staleFS : FS :=
  { FS.empty with done := true, blocked := true, designSpec := true }

/-- A runner that has completed and whose background thread has exited. -/
def doneRunnerState : RunnerState :=
  ⟨.completed, none, false, false, false, false, false, none, none, false⟩

/-- A running runner whose child process has two descendant processes. -/
def procRunnerState : RunnerState :=
  ⟨.running, none, false, false, false, false, false, none,
   some ⟨100, [101, 102]⟩, true⟩

/-- A runner whose background thread is alive. -/
def aliveRunnerState : RunnerState :=
  ⟨.running, none, false, false, false, false, false, none, none, true⟩

/-- Reaching the pre-invocation checks: if the pause boundary does not end
the run, the step equals the pre-invocation checks on the merged folder
view, with an event prefix containing no invocation, deletion, or wait. -/
theorem attemptStep_reach_pre (cfg : Config) (e : AttemptEnv) (s : LoopState)
    (hp : (e.pauseRequested && (s.stopRequested || e.stopWhilePaused)) = false) :
    ∃ evs0, attemptStep cfg e s =
        preChecks cfg e ⟨FS.union s.fs e.preAdd, s.stopRequested⟩ evs0 ∧
      (∀ b, Ev.invoke b ∉ evs0) ∧ Ev.removeCheckpoint ∉ evs0 ∧
      (∀ r d, Ev.waitState r d ∉ evs0) := by
  unfold attemptStep
  cases hpr : e.pauseRequested with
  | false =>
    exact ⟨[], by simp, by simp, by simp, by simp⟩
  | true =>
    have hsw : (s.stopRequested || e.stopWhilePaused) = false := by
      simpa [hpr] using hp
    refine ⟨[Ev.setStatus .paused, Ev.setStatus .running], ?_, by simp,
      by simp, by simp⟩
    simp [hsw]

/-- The missing-checkpoint gate never returns completed or blocked. -/
theorem gatePhase_term_inv (cfg : Config) (e : AttemptEnv) (fsP : FS)
    (evs : List Ev) :
    ∀ err fs',
      (gatePhase cfg e fsP evs).1 ≠ .term .completed err fs' ∧
      (gatePhase cfg e fsP evs).1 ≠ .term .blocked err fs' := by
  intro err fs'
  unfold gatePhase
  cases hg : e.gateStop with
  | true => simp [hg]
  | false =>
    cases hgd : e.gateDecision with
    | true => simp [hg, hgd]
    | false => simp [hg, hgd]

/-- The post-invocation checks return completed (blocked) only when the
done (blocked) sentinel exists in the merged folder view. -/
theorem postChecks_term_inv (cfg : Config) (e : AttemptEnv) (fs1 : FS)
    (evs : List Ev) :
    ∀ err fs',
      ((postChecks cfg e fs1 evs).1 = .term .completed err fs' →
        (FS.union fs1 e.postAdd).done = true) ∧
      ((postChecks cfg e fs1 evs).1 = .term .blocked err fs' →
        (FS.union fs1 e.postAdd).blocked = true) := by
  intro err fs'
  unfold postChecks
  cases hd : (FS.union fs1 e.postAdd).done with
  | true => simp [hd]
  | false =>
    cases hb : (FS.union fs1 e.postAdd).blocked with
    | true => simp [hd, hb]
    | false =>
      cases hc : (FS.union fs1 e.postAdd).checkpoint with
      | true => simp [hd, hb, hc]
      | false =>
        simp only [hd, hb, hc, Bool.false_eq_true, if_false]
        exact ⟨fun hh => absurd hh (gatePhase_term_inv cfg e _ _ err fs').1,
               fun hh => absurd hh (gatePhase_term_inv cfg e _ _ err fs').2⟩

/-- The invocation phase returns completed (blocked) only when the done
(blocked) sentinel exists in the merged folder view. -/
theorem invokePhase_term_inv (cfg : Config) (e : AttemptEnv) (fs1 : FS)
    (evs : List Ev) :
    ∀ err fs',
      ((invokePhase cfg e fs1 evs).1 = .term .completed err fs' →
        (FS.union fs1 e.postAdd).done = true) ∧
      ((invokePhase cfg e fs1 evs).1 = .term .blocked err fs' →
        (FS.union fs1 e.postAdd).blocked = true) := by
  intro err fs'
  unfold invokePhase
  cases hok : (e.invokeOk && !e.stopDuringInvoke) with
  | true =>
    simp only [hok, if_true]
    exact postChecks_term_inv cfg e fs1 _ err fs'
  | false => simp [hok]

/-- The pre-invocation checks return completed (blocked) only when the
done (blocked) sentinel exists in the fully merged folder view. -/
theorem preChecks_term_inv (cfg : Config) (e : AttemptEnv) (s : LoopState)
    (evs : List Ev) :
    ∀ err fs',
      ((preChecks cfg e s evs).1 = .term .completed err fs' →
        (FS.union s.fs e.postAdd).done = true) ∧
      ((preChecks cfg e s evs).1 = .term .blocked err fs' →
        (FS.union s.fs e.postAdd).blocked = true) := by
  intro err fs'
  unfold preChecks
  cases hs : (s.stopRequested || e.stopAtCheck || s.fs.stopFile) with
  | true => simp [hs]
  | false =>
    cases hd : s.fs.done with
    | true =>
      constructor <;> intro hh <;> simp_all [FS.union, hs, hd]
    | false =>
      cases hb : s.fs.blocked with
      | true =>
        constructor <;> intro hh <;> simp_all [FS.union, hs, hd, hb]
      | false =>
        cases hc : s.fs.checkpoint with
        | true => simp [hs, hd, hb, hc]
        | false =>
          simp only [hs, hd, hb, hc, Bool.false_eq_true, if_false]
          exact invokePhase_term_inv cfg e s.fs _ err fs'

/-- A step returns completed (blocked) only when the done (blocked)
sentinel exists in the fully merged folder view of the attempt. -/
theorem attemptStep_term_inv (cfg : Config) (e : AttemptEnv) (s : LoopState) :
    ∀ err fs',
      ((attemptStep cfg e s).1 = .term .completed err fs' →
        (FS.union (FS.union s.fs e.preAdd) e.postAdd).done = true) ∧
      ((attemptStep cfg e s).1 = .term .blocked err fs' →
        (FS.union (FS.union s.fs e.preAdd) e.postAdd).blocked = true) := by
  intro err fs'
  unfold attemptStep
  cases hpr : e.pauseRequested with
  | true =>
    cases hsw : (s.stopRequested || e.stopWhilePaused) with
    | true => simp [hpr, hsw]
    | false =>
      simp only [hpr, hsw, Bool.false_eq_true, if_true, if_false]
      exact preChecks_term_inv cfg e ⟨FS.union s.fs e.preAdd, s.stopRequested⟩
        _ err fs'
  | false =>
    simp only [hpr, Bool.false_eq_true, if_false]
    exact preChecks_term_inv cfg e ⟨FS.union s.fs e.preAdd, s.stopRequested⟩
      _ err fs'

/-- Exhausting the attempt budget yields failed with the source message. -/
theorem loopAux_exhaust (cfg : Config) (env : RunEnv) :
    ∀ rem i s, runsAllAttempts cfg env rem i s = true →
      (loopAux cfg env rem i s).status = Status.failed ∧
      (loopAux cfg env rem i s).errorMessage = some "Max attempts reached" := by
  intro rem
  induction rem with
  | zero => intro i s _; exact ⟨rfl, rfl⟩
  | succ n ih =>
    intro i s h
    unfold runsAllAttempts at h
    unfold loopAux
    cases hstep : attemptStep cfg (env.att i) s with
    | mk res evs =>
      cases res with
      | term st err fs =>
        rw [hstep] at h
        simp at h
      | cont s' =>
        rw [hstep] at h
        simp only [hstep]
        exact ih (i + 1) s' h

/-- Once the stop flag is set at tick `t0` (the flag is sticky), the sleep
loop of `_wait_with_state` performs no sleep at or after `t0`. -/
theorem waitTicks_le_of_stop (stop : Nat → Bool) (t0 : Nat)
    (hstick : ∀ u, t0 ≤ u → stop u = true) :
    ∀ r t, waitTicks stop r t + t ≤ max t0 t := by
  intro r
  induction r with
  | zero => intro t; simp [waitTicks]
  | succ n ih =>
    intro t
    unfold waitTicks
    cases hs : stop t with
    | true => simp [hs]
    | false =>
      have ht : t < t0 := by
        by_contra hcon
        push_neg at hcon
        rw [hstick t hcon] at hs
        exact Bool.true_eq_false.mp hs
      have := ih (t + 1)
      simp only [Bool.false_eq_true, if_false]
      omega

/-- With the stop flag already set, an attempt terminates immediately with
status stopped at its pause boundary or stop check. -/
theorem attemptStep_stopRequested (cfg : Config) (e : AttemptEnv)
    (s : LoopState) (hs : s.stopRequested = true) :
    (attemptStep cfg e s).1 = .term .stopped none (FS.union s.fs e.preAdd) := by
  unfold attemptStep
  cases hpr : e.pauseRequested with
  | true => simp [hs]
  | false =>
    simp only [Bool.false_eq_true, if_false]
    unfold preChecks
    simp [hs]

/-- With the stop flag set and at least one attempt remaining, the run
ends stopped with no error message. -/
theorem loopAux_stopRequested (cfg : Config) (env : RunEnv) (rem i : Nat)
    (s : LoopState) (hrem : 1 ≤ rem) (hs : s.stopRequested = true) :
    (loopAux cfg env rem i s).status = Status.stopped ∧
    (loopAux cfg env rem i s).errorMessage = none := by
  cases rem with
  | zero => omega
  | succ n =>
    unfold loopAux
    cases hstep : attemptStep cfg (env.att i) s with
    | mk res evs =>
      have h1 := attemptStep_stopRequested cfg (env.att i) s hs
      rw [hstep] at h1
      simp only at h1
      cases res with
      | term st err fs =>
        simp only [hstep]
        cases h1
        exact ⟨rfl, rfl⟩
      | cont s' => simp at h1

/-- C1: at both check points of an attempt (before the invocation and
after a successful one), a done sentinel yields the completed status and a
blocked sentinel (without done) yields the blocked status, and in either
case a simultaneously present checkpoint sentinel is deleted: the
done/blocked checks run before the checkpoint check, so the checkpoint
branch is never taken when done or blocked is present. -/
theorem done_blocked_precedence_c1 (cfg : Config) (e : AttemptEnv) (s : LoopState)
    (hp : (e.pauseRequested && (s.stopRequested || e.stopWhilePaused)) = false)
    (hstop : (s.stopRequested || e.stopAtCheck ||
              (FS.union s.fs e.preAdd).stopFile) = false) :
    ((FS.union s.fs e.preAdd).done = true →
       (FS.union s.fs e.preAdd).checkpoint = true →
       (attemptStep cfg e s).1 =
         .term .completed none { FS.union s.fs e.preAdd with checkpoint := false } ∧
       Ev.removeCheckpoint ∈ (attemptStep cfg e s).2) ∧
    ((FS.union s.fs e.preAdd).done = false →
       (FS.union s.fs e.preAdd).blocked = true →
       (FS.union s.fs e.preAdd).checkpoint = true →
       (attemptStep cfg e s).1 =
         .term .blocked none { FS.union s.fs e.preAdd with checkpoint := false } ∧
       Ev.removeCheckpoint ∈ (attemptStep cfg e s).2) ∧
    ((FS.union s.fs e.preAdd).done = false →
       (FS.union s.fs e.preAdd).blocked = false →
       (FS.union s.fs e.preAdd).checkpoint = false →
       (e.invokeOk && !e.stopDuringInvoke) = true →
       ((FS.union (FS.union s.fs e.preAdd) e.postAdd).done = true →
          (FS.union (FS.union s.fs e.preAdd) e.postAdd).checkpoint = true →
          (attemptStep cfg e s).1 =
            .term .completed none
              { FS.union (FS.union s.fs e.preAdd) e.postAdd with checkpoint := false } ∧
          Ev.removeCheckpoint ∈ (attemptStep cfg e s).2) ∧
       ((FS.union (FS.union s.fs e.preAdd) e.postAdd).done = false →
          (FS.union (FS.union s.fs e.preAdd) e.postAdd).blocked = true →
          (FS.union (FS.union s.fs e.preAdd) e.postAdd).checkpoint = true →
          (attemptStep cfg e s).1 =
            .term .blocked none
              { FS.union (FS.union s.fs e.preAdd) e.postAdd with checkpoint := false } ∧
          Ev.removeCheckpoint ∈ (attemptStep cfg e s).2)) := by
  obtain ⟨evs0, heq, hni, hnr, hnw⟩ := attemptStep_reach_pre cfg e s hp
  rw [heq]
  refine ⟨?_, ?_, ?_⟩
  · intro hd hc
    unfold preChecks
    simp [hstop, hd, hc]
  · intro hd hb hc
    unfold preChecks
    simp [hstop, hd, hb, hc]
  · intro hd hb hc hok
    unfold preChecks invokePhase postChecks
    refine ⟨?_, ?_⟩
    · intro hdP hcP
      simp [hstop, hd, hb, hc, hok, hdP, hcP]
    · intro hdP hbP hcP
      simp [hstop, hd, hb, hc, hok, hdP, hbP, hcP]

/-- C1 witness: a folder with done and checkpoint present yields completed
and deletes the checkpoint file. -/
theorem done_blocked_precedence_c1_witness :
    (attemptStep ⟨1, 2⟩ quietAttempt ⟨doneCkFS, false⟩).1 =
      .term .completed none
        { FS.union doneCkFS quietAttempt.preAdd with checkpoint := false } ∧
    Ev.removeCheckpoint ∈ (attemptStep ⟨1, 2⟩ quietAttempt ⟨doneCkFS, false⟩).2 :=
  (done_blocked_precedence_c1 ⟨1, 2⟩ quietAttempt ⟨doneCkFS, false⟩
    (by decide) (by decide)).1 (by decide) (by decide)

/-- C2 counterexample: `force_kill` on a runner whose status is the
terminal value completed changes the status to stopped, so the four
terminal states are not absorbing under every operation. -/
theorem force_kill_on_completed_c2_cex :
    doneRunnerState.status = Status.completed ∧
    (RalphLoopRunner.force_kill OSKind.posix doneRunnerState).1.status ≠
      Status.completed ∧
    (RalphLoopRunner.force_kill OSKind.posix doneRunnerState).1.status =
      Status.stopped := by
  refine ⟨rfl, by decide, rfl⟩

/-- C2 (amended): the control operations `pause`, `resume`, `stop`, and
both missing-checkpoint decisions never change the status field, so
terminal statuses are absorbing under them; `force_kill`, however,
unconditionally sets the status to stopped from any state, terminal
states included. -/
theorem terminal_absorbing_amended_c2 (s : RunnerState) (os : OSKind) :
    (RalphLoopRunner.pause s).status = s.status ∧
    (RalphLoopRunner.resume s).status = s.status ∧
    (RalphLoopRunner.stop s).status = s.status ∧
    (RalphLoopRunner.continue_after_missing_checkpoint s).status = s.status ∧
    (RalphLoopRunner.stop_after_missing_checkpoint s).status = s.status ∧
    (RalphLoopRunner.force_kill os s).1.status = Status.stopped := by
  refine ⟨?_, rfl, rfl, rfl, rfl, rfl⟩
  unfold RalphLoopRunner.pause
  split <;> rfl

/-- C3 counterexample: a run that exhausts its single attempt ends failed,
but its error message is "Max attempts reached", not the claimed string
"max attempts reached". -/
theorem max_attempts_message_c3_cex :
    (runLoop ⟨1, 2⟩ ⟨specOnlyFS, fun _ => quietAttempt⟩).status =
      Status.failed ∧
    (runLoop ⟨1, 2⟩ ⟨specOnlyFS, fun _ => quietAttempt⟩).errorMessage ≠
      some "max attempts reached" := by
  constructor
  · rfl
  · decide

/-- C3 (amended): a run that completes all max_attempts attempts without
any attempt reaching a terminal state ends with status failed and the
non-empty error message "Max attempts reached". -/
theorem max_attempts_failed_amended_c3 (cfg : Config) (env : RunEnv)
    (hspec : env.initFS.designSpec = true)
    (hall : runsAllAttempts cfg env cfg.maxAttempts 1
      ⟨initialFS env.initFS, false⟩ = true) :
    (runLoop cfg env).status = Status.failed ∧
    (runLoop cfg env).errorMessage = some "Max attempts reached" ∧
    "Max attempts reached" ≠ "" := by
  unfold runLoop
  simp only [hspec]
  have h := loopAux_exhaust cfg env cfg.maxAttempts 1
    ⟨initialFS env.initFS, false⟩ hall
  simp only [Bool.true_eq_false, if_false]
  exact ⟨h.1, h.2, by decide⟩

/-- C3 witness: a two-attempt run whose invocations always fail exhausts
its budget and ends failed with the message "Max attempts reached". -/
theorem max_attempts_failed_amended_c3_witness :
    (runLoop ⟨2, 2⟩ ⟨specOnlyFS, fun _ => quietAttempt⟩).status =
      Status.failed ∧
    (runLoop ⟨2, 2⟩ ⟨specOnlyFS, fun _ => quietAttempt⟩).errorMessage =
      some "Max attempts reached" ∧
    "Max attempts reached" ≠ "" :=
  max_attempts_failed_amended_c3 ⟨2, 2⟩ ⟨specOnlyFS, fun _ => quietAttempt⟩
    rfl (by decide)

/-- C4 counterexample: with max_attempts = 1, a checkpoint wait occurs on
the final attempt and a stop is requested during it, yet the run ends
failed ("Max attempts reached"), not stopped. -/
theorem stop_during_final_wait_c4_cex :
    ckStopAttempt.stopDuringWait = true ∧
    (runLoop ⟨1, 2⟩ ⟨specOnlyFS, fun _ => ckStopAttempt⟩).trace =
      [(1, [Ev.removeCheckpoint, Ev.waitState .checkpoint 2])] ∧
    (runLoop ⟨1, 2⟩ ⟨specOnlyFS, fun _ => ckStopAttempt⟩).status =
      Status.failed ∧
    (runLoop ⟨1, 2⟩ ⟨specOnlyFS, fun _ => ckStopAttempt⟩).status ≠
      Status.stopped := by
  refine ⟨rfl, rfl, rfl, by decide⟩

/-- C4 (amended): a stop request arriving at tick t0 ends the sleep loop
of `_wait_with_state` with no sleep performed at or after t0 (so the wait
ends within one polling interval); an attempt entered with the stop flag
set terminates immediately as stopped, hence a stop during a wait on any
non-final attempt ends the run stopped with no error; but if no attempt
remains after the wait, the loop instead exhausts to failed with message
"Max attempts reached". -/
theorem stop_during_wait_amended_c4 (stop : Nat → Bool) (t0 r : Nat)
    (cfg : Config) (env : RunEnv) (rem i j : Nat) (s s2 : LoopState)
    (hstick : ∀ u, t0 ≤ u → stop u = true)
    (hrem : 1 ≤ rem) (hs : s.stopRequested = true) :
    waitTicks stop r 0 ≤ t0 ∧
    (attemptStep cfg (env.att i) s).1 =
      .term .stopped none (FS.union s.fs (env.att i).preAdd) ∧
    (loopAux cfg env rem i s).status = Status.stopped ∧
    (loopAux cfg env rem i s).errorMessage = none ∧
    (loopAux cfg env 0 j s2).status = Status.failed ∧
    (loopAux cfg env 0 j s2).errorMessage = some "Max attempts reached" := by
  refine ⟨?_, attemptStep_stopRequested cfg (env.att i) s hs,
    (loopAux_stopRequested cfg env rem i s hrem hs).1,
    (loopAux_stopRequested cfg env rem i s hrem hs).2, rfl, rfl⟩
  have := waitTicks_le_of_stop stop t0 hstick r 0
  omega

/-- C4 witness: with the stop flag set from tick 0, the wait loop sleeps
zero times, and a stopped attempt with one attempt remaining ends the run
stopped; with no attempt remaining the run ends failed. -/
theorem stop_during_wait_amended_c4_witness :
    waitTicks (fun _ => true) 7 0 ≤ 0 ∧
    (attemptStep ⟨2, 2⟩ ((⟨specOnlyFS, fun _ => quietAttempt⟩ : RunEnv).att 2)
        ⟨specOnlyFS, true⟩).1 =
      .term .stopped none (FS.union specOnlyFS quietAttempt.preAdd) ∧
    (loopAux ⟨2, 2⟩ ⟨specOnlyFS, fun _ => quietAttempt⟩ 1 2
      ⟨specOnlyFS, true⟩).status = Status.stopped ∧
    (loopAux ⟨2, 2⟩ ⟨specOnlyFS, fun _ => quietAttempt⟩ 1 2
      ⟨specOnlyFS, true⟩).errorMessage = none ∧
    (loopAux ⟨2, 2⟩ ⟨specOnlyFS, fun _ => quietAttempt⟩ 0 3
      ⟨specOnlyFS, true⟩).status = Status.failed ∧
    (loopAux ⟨2, 2⟩ ⟨specOnlyFS, fun _ => quietAttempt⟩ 0 3
      ⟨specOnlyFS, true⟩).errorMessage = some "Max attempts reached" :=
  stop_during_wait_amended_c4 (fun _ => true) 0 7 ⟨2, 2⟩
    ⟨specOnlyFS, fun _ => quietAttempt⟩ 1 2 3 ⟨specOnlyFS, true⟩
    ⟨specOnlyFS, true⟩ (fun _ _ => rfl) (by decide) rfl

/-- C5: when the design-spec sentinel is absent at start, the run ends
failed with the non-empty message "Missing RALPH-DESIGN.md", performs zero
agent invocations, and the attempt counter stays 0. -/
theorem missing_design_spec_c5 (cfg : Config) (env : RunEnv)
    (h : env.initFS.designSpec = false) :
    (runLoop cfg env).status = Status.failed ∧
    (runLoop cfg env).errorMessage = some MISSING_SPEC_MSG ∧
    MISSING_SPEC_MSG ≠ "" ∧
    countInvokes (runLoop cfg env).trace = 0 ∧
    (runLoop cfg env).attempt = 0 := by
  unfold runLoop
  simp only [h]
  refine ⟨by simp, by simp, by decide, by simp [countInvokes], by simp⟩

/-- C5 witness: a run over an empty folder fails immediately with the
missing-spec message, zero invocations, attempt counter 0. -/
theorem missing_design_spec_c5_witness :
    (runLoop ⟨40, 2⟩ ⟨FS.empty, fun _ => quietAttempt⟩).status =
      Status.failed ∧
    (runLoop ⟨40, 2⟩ ⟨FS.empty, fun _ => quietAttempt⟩).errorMessage =
      some MISSING_SPEC_MSG ∧
    MISSING_SPEC_MSG ≠ "" ∧
    countInvokes (runLoop ⟨40, 2⟩ ⟨FS.empty, fun _ => quietAttempt⟩).trace = 0 ∧
    (runLoop ⟨40, 2⟩ ⟨FS.empty, fun _ => quietAttempt⟩).attempt = 0 :=
  missing_design_spec_c5 ⟨40, 2⟩ ⟨FS.empty, fun _ => quietAttempt⟩ rfl

/-- C6: a checkpoint sentinel present at the pre-invocation check (with no
stop/done/blocked) is deleted, a checkpoint wait of the configured delay
is entered, and the attempt continues to the next one without any agent
invocation; a checkpoint sentinel present after a successful invocation
(with no done/blocked) is likewise deleted, a checkpoint wait is entered,
and the loop continues rather than terminating. -/
theorem checkpoint_consumption_c6 (cfg : Config) (e : AttemptEnv) (s : LoopState)
    (hp : (e.pauseRequested && (s.stopRequested || e.stopWhilePaused)) = false)
    (hstop : (s.stopRequested || e.stopAtCheck ||
              (FS.union s.fs e.preAdd).stopFile) = false) :
    ((FS.union s.fs e.preAdd).done = false →
       (FS.union s.fs e.preAdd).blocked = false →
       (FS.union s.fs e.preAdd).checkpoint = true →
       (attemptStep cfg e s).1 =
         .cont ⟨{ FS.union s.fs e.preAdd with checkpoint := false },
                e.stopDuringWait⟩ ∧
       Ev.removeCheckpoint ∈ (attemptStep cfg e s).2 ∧
       Ev.waitState .checkpoint cfg.sleepSeconds ∈ (attemptStep cfg e s).2 ∧
       (∀ b, Ev.invoke b ∉ (attemptStep cfg e s).2)) ∧
    ((FS.union s.fs e.preAdd).done = false →
       (FS.union s.fs e.preAdd).blocked = false →
       (FS.union s.fs e.preAdd).checkpoint = false →
       (e.invokeOk && !e.stopDuringInvoke) = true →
       (FS.union (FS.union s.fs e.preAdd) e.postAdd).done = false →
       (FS.union (FS.union s.fs e.preAdd) e.postAdd).blocked = false →
       (FS.union (FS.union s.fs e.preAdd) e.postAdd).checkpoint = true →
       (attemptStep cfg e s).1 =
         .cont ⟨{ FS.union (FS.union s.fs e.preAdd) e.postAdd with
                  checkpoint := false }, e.stopDuringWait⟩ ∧
       Ev.removeCheckpoint ∈ (attemptStep cfg e s).2 ∧
       Ev.waitState .checkpoint cfg.sleepSeconds ∈ (attemptStep cfg e s).2) := by
  obtain ⟨evs0, heq, hni, hnr, hnw⟩ := attemptStep_reach_pre cfg e s hp
  rw [heq]
  constructor
  · intro hd hb hc
    unfold preChecks
    refine ⟨by simp [hstop, hd, hb, hc], by simp [hstop, hd, hb, hc],
      by simp [hstop, hd, hb, hc], ?_⟩
    intro b
    simp [hstop, hd, hb, hc]
    exact hni b
  · intro hd hb hc hok hdP hbP hcP
    unfold preChecks invokePhase postChecks
    simp [hstop, hd, hb, hc, hok, hdP, hbP, hcP]

/-- C6 witness: a folder with only a checkpoint file yields a continuing
attempt that deletes the file, waits with reason checkpoint, and never
invokes the agent. -/
theorem checkpoint_consumption_c6_witness :
    (attemptStep ⟨1, 2⟩ quietAttempt ⟨ckOnlyFS, false⟩).1 =
      .cont ⟨{ FS.union ckOnlyFS quietAttempt.preAdd with checkpoint := false },
             quietAttempt.stopDuringWait⟩ ∧
    Ev.removeCheckpoint ∈ (attemptStep ⟨1, 2⟩ quietAttempt ⟨ckOnlyFS, false⟩).2 ∧
    Ev.waitState .checkpoint 2 ∈
      (attemptStep ⟨1, 2⟩ quietAttempt ⟨ckOnlyFS, false⟩).2 ∧
    (∀ b, Ev.invoke b ∉ (attemptStep ⟨1, 2⟩ quietAttempt ⟨ckOnlyFS, false⟩).2) :=
  (checkpoint_consumption_c6 ⟨1, 2⟩ quietAttempt ⟨ckOnlyFS, false⟩
    (by decide) (by decide)).1 (by decide) (by decide) (by decide)

/-- C7 counterexample: on a runner in the terminal status completed whose
background thread has exited, `start` does not raise; it succeeds and
restarts the loop on the same instance. -/
theorem start_after_terminal_c7_cex :
    doneRunnerState.status = Status.completed ∧
    doneRunnerState.threadAlive = false ∧
    RalphLoopRunner.start doneRunnerState =
      Except.ok { doneRunnerState with
        stopRequested := false
        status := Status.running
        threadAlive := true } := by
  exact ⟨rfl, rfl, rfl⟩

/-- C7 (amended): `start` raises "Runner is already running" exactly when
the background thread is still alive; once the thread has finished (as
after any terminal state), `start` succeeds again, clearing the stop flag
and setting status running — it does not reject restart after a terminal
state. -/
theorem start_guard_amended_c7 (s : RunnerState) :
    (s.threadAlive = true →
      RalphLoopRunner.start s = Except.error "Runner is already running") ∧
    (s.threadAlive = false →
      ∃ s', RalphLoopRunner.start s = Except.ok s' ∧
        s'.status = Status.running ∧ s'.stopRequested = false ∧
        s'.threadAlive = true) := by
  constructor
  · intro h
    unfold RalphLoopRunner.start
    simp [h]
  · intro h
    refine ⟨{ s with
      stopRequested := false
      status := Status.running
      threadAlive := true }, ?_, rfl, rfl, rfl⟩
    unfold RalphLoopRunner.start
    simp [h]

/-- C7 witness: `start` errors on a runner with a live thread and
succeeds on a completed runner whose thread has exited. -/
theorem start_guard_amended_c7_witness :
    RalphLoopRunner.start aliveRunnerState =
      Except.error "Runner is already running" ∧
    ∃ s', RalphLoopRunner.start doneRunnerState = Except.ok s' ∧
      s'.status = Status.running ∧ s'.stopRequested = false ∧
      s'.threadAlive = true := by
  exact ⟨(start_guard_amended_c7 aliveRunnerState).1 rfl,
         (start_guard_amended_c7 doneRunnerState).2 rfl⟩

/-- C8 counterexample: on a non-Windows platform, `force_kill` on a runner
whose child process has descendants terminates only the direct child (pid
100); descendant pid 101 is not killed, so the process tree is not
terminated in every Runner state. -/
theorem force_kill_posix_descendants_c8_cex :
    procRunnerState.currentProcess = some ⟨100, [101, 102]⟩ ∧
    (RalphLoopRunner.force_kill OSKind.posix procRunnerState).2 = [100] ∧
    (101 : Nat) ∉ (RalphLoopRunner.force_kill OSKind.posix procRunnerState).2 := by
  refine ⟨rfl, rfl, by decide⟩

/-- C8 (amended): `force_kill` always sets status stopped, clears the wait
and pause flags, sets the stop flag, and leaves no child-process handle;
when a child is live its direct pid is always terminated, the full process
tree (descendants included) is terminated on Windows, and on other
platforms only the direct child is terminated. -/
theorem force_kill_amended_c8 (os : OSKind) (s : RunnerState) :
    (RalphLoopRunner.force_kill os s).1.status = Status.stopped ∧
    (RalphLoopRunner.force_kill os s).1.currentProcess = none ∧
    (RalphLoopRunner.force_kill os s).1.isWaiting = false ∧
    (RalphLoopRunner.force_kill os s).1.isPaused = false ∧
    (RalphLoopRunner.force_kill os s).1.stopRequested = true ∧
    (∀ p, s.currentProcess = some p →
      p.pid ∈ (RalphLoopRunner.force_kill os s).2) ∧
    (∀ p, s.currentProcess = some p →
      (RalphLoopRunner.force_kill OSKind.windows s).2 = p.pid :: p.descendants) ∧
    (∀ p, s.currentProcess = some p →
      (RalphLoopRunner.force_kill OSKind.posix s).2 = [p.pid]) := by
  refine ⟨rfl, rfl, rfl, rfl, rfl, ?_, ?_, ?_⟩
  · intro p hp
    unfold RalphLoopRunner.force_kill RalphLoopRunner.killedPids
    cases os <;> simp [hp]
  · intro p hp
    unfold RalphLoopRunner.force_kill RalphLoopRunner.killedPids
    simp [hp]
  · intro p hp
    unfold RalphLoopRunner.force_kill RalphLoopRunner.killedPids
    simp [hp]

/-- C8 witness: on the concrete runner with child pid 100 and descendants
101 and 102, posix `force_kill` terminates pid 100 and windows
`force_kill` terminates the whole tree. -/
theorem force_kill_amended_c8_witness :
    (100 : Nat) ∈ (RalphLoopRunner.force_kill OSKind.posix procRunnerState).2 ∧
    (RalphLoopRunner.force_kill OSKind.windows procRunnerState).2 =
      [100, 101, 102] := by
  have h := force_kill_amended_c8 OSKind.posix procRunnerState
  exact ⟨h.2.2.2.2.2.1 ⟨100, [101, 102]⟩ rfl,
         h.2.2.2.2.2.2.1 ⟨100, [101, 102]⟩ rfl⟩

/-- C9: when an invocation succeeds and afterwards no done, blocked, or
checkpoint sentinel exists, the attempt records the missing_checkpoint
status; the gate ends the run stopped on a stop request or a "stop"
decision, while a "continue" decision restores the running status,
performs a cooldown wait of the configured delay, and continues to the
next attempt. -/
theorem missing_checkpoint_gate_c9 (cfg : Config) (e : AttemptEnv) (s : LoopState)
    (hp : (e.pauseRequested && (s.stopRequested || e.stopWhilePaused)) = false)
    (hstop : (s.stopRequested || e.stopAtCheck ||
              (FS.union s.fs e.preAdd).stopFile) = false)
    (hd : (FS.union s.fs e.preAdd).done = false)
    (hb : (FS.union s.fs e.preAdd).blocked = false)
    (hc : (FS.union s.fs e.preAdd).checkpoint = false)
    (hok : (e.invokeOk && !e.stopDuringInvoke) = true)
    (hdP : (FS.union (FS.union s.fs e.preAdd) e.postAdd).done = false)
    (hbP : (FS.union (FS.union s.fs e.preAdd) e.postAdd).blocked = false)
    (hcP : (FS.union (FS.union s.fs e.preAdd) e.postAdd).checkpoint = false) :
    Ev.setStatus .missing_checkpoint ∈ (attemptStep cfg e s).2 ∧
    (e.gateStop = true →
      (attemptStep cfg e s).1 =
        .term .stopped none (FS.union (FS.union s.fs e.preAdd) e.postAdd)) ∧
    (e.gateStop = false → e.gateDecision = false →
      (attemptStep cfg e s).1 =
        .term .stopped none (FS.union (FS.union s.fs e.preAdd) e.postAdd)) ∧
    (e.gateStop = false → e.gateDecision = true →
      (attemptStep cfg e s).1 =
        .cont ⟨FS.union (FS.union s.fs e.preAdd) e.postAdd, e.stopDuringWait⟩ ∧
      Ev.setStatus .running ∈ (attemptStep cfg e s).2 ∧
      Ev.waitState .cooldown cfg.sleepSeconds ∈ (attemptStep cfg e s).2) := by
  obtain ⟨evs0, heq, hni, hnr, hnw⟩ := attemptStep_reach_pre cfg e s hp
  rw [heq]
  unfold preChecks invokePhase postChecks gatePhase
  refine ⟨?_, ?_, ?_, ?_⟩
  · cases hg : e.gateStop with
    | true => simp [hstop, hd, hb, hc, hok, hdP, hbP, hcP, hg]
    | false =>
      cases hgd : e.gateDecision with
      | true => simp [hstop, hd, hb, hc, hok, hdP, hbP, hcP, hg, hgd]
      | false => simp [hstop, hd, hb, hc, hok, hdP, hbP, hcP, hg, hgd]
  · intro hg
    simp [hstop, hd, hb, hc, hok, hdP, hbP, hcP, hg]
  · intro hg hgd
    simp [hstop, hd, hb, hc, hok, hdP, hbP, hcP, hg, hgd]
  · intro hg hgd
    simp [hstop, hd, hb, hc, hok, hdP, hbP, hcP, hg, hgd]

/-- C9 witness: a successful invocation creating no files records the
missing_checkpoint status, and the "continue" decision yields a continuing
attempt with a running status write and a cooldown wait. -/
theorem missing_checkpoint_gate_c9_witness :
    Ev.setStatus .missing_checkpoint ∈
      (attemptStep ⟨2, 2⟩ gateContAttempt ⟨specOnlyFS, false⟩).2 ∧
    ((attemptStep ⟨2, 2⟩ gateContAttempt ⟨specOnlyFS, false⟩).1 =
      .cont ⟨FS.union (FS.union specOnlyFS gateContAttempt.preAdd)
               gateContAttempt.postAdd, gateContAttempt.stopDuringWait⟩ ∧
     Ev.setStatus .running ∈
       (attemptStep ⟨2, 2⟩ gateContAttempt ⟨specOnlyFS, false⟩).2 ∧
     Ev.waitState .cooldown 2 ∈
       (attemptStep ⟨2, 2⟩ gateContAttempt ⟨specOnlyFS, false⟩).2) := by
  have h := missing_checkpoint_gate_c9 ⟨2, 2⟩ gateContAttempt ⟨specOnlyFS, false⟩
    (by decide) (by decide) (by decide) (by decide) (by decide) (by decide)
    (by decide) (by decide) (by decide)
  exact ⟨h.1, h.2.2.2 rfl rfl⟩

/-- C10: loop initialization deletes pre-existing done and blocked
sentinels (after the design-spec check and scaffolding), so attempt 1
cannot terminate completed or blocked unless the environment creates a
done or blocked sentinel at or after loop start. -/
theorem initial_cleanup_c10 (cfg : Config) (env : RunEnv)
    (hpre1 : (env.att 1).preAdd.done = false)
    (hpre2 : (env.att 1).preAdd.blocked = false)
    (hpost1 : (env.att 1).postAdd.done = false)
    (hpost2 : (env.att 1).postAdd.blocked = false) :
    (initialFS env.initFS).done = false ∧
    (initialFS env.initFS).blocked = false ∧
    (∀ err fs', (attemptStep cfg (env.att 1) ⟨initialFS env.initFS, false⟩).1 ≠
      .term .completed err fs') ∧
    (∀ err fs', (attemptStep cfg (env.att 1) ⟨initialFS env.initFS, false⟩).1 ≠
      .term .blocked err fs') := by
  refine ⟨rfl, rfl, ?_, ?_⟩
  · intro err fs' hh
    have := (attemptStep_term_inv cfg (env.att 1)
      ⟨initialFS env.initFS, false⟩ err fs').1 hh
    simp [FS.union, initialFS, hpre1, hpost1] at this
  · intro err fs' hh
    have := (attemptStep_term_inv cfg (env.att 1)
      ⟨initialFS env.initFS, false⟩ err fs').2 hh
    simp [FS.union, initialFS, hpre2, hpost2] at this

/-- C10 witness: on a folder with stale done and blocked files,
initialization clears both, and attempt 1 with a quiet environment ends
neither completed nor blocked. -/
theorem initial_cleanup_c10_witness :
    (initialFS staleFS).done = false ∧
    (initialFS staleFS).blocked = false ∧
    (attemptStep ⟨1, 2⟩ quietAttempt ⟨initialFS staleFS, false⟩).1 ≠
      .term .completed none staleFS ∧
    (attemptStep ⟨1, 2⟩ quietAttempt ⟨initialFS staleFS, false⟩).1 ≠
      .term .blocked none staleFS := by
  have h := initial_cleanup_c10 ⟨1, 2⟩ ⟨staleFS, fun _ => quietAttempt⟩
    (by decide) (by decide) (by decide) (by decide)
  exact ⟨h.1, h.2.1, h.2.2.1 none staleFS, h.2.2.2 none staleFS⟩
